import Mathlib

/-!
# Shallow embedding of the Zipios ZIP container core

This file embeds, in Lean 4, the parts of the Zipios C++ sources that the
verified claims speak about:

* `ZipCentralDirectoryEntry` — the central directory record codec
  (`src/zipios++/filteroutputstreambuf.h`, second part of the file):
  `getHeaderSize`, `read`, `write`;
* `ZipInputStreambuf` — the read-path state machine
  (`src/unnamed/part_000`): `closeEntry`, `getNextEntry`;
* `ZipOutputStreambuf` — the write-path state machine
  (`src/unnamed/part_001`, first part): `closeEntry`, `finish`,
  `putNextEntry`, `overflow`, `updateEntryHeaderInfo`,
  `writeCentralDirectory`;
* `DirectoryCollection` — the directory-backed collection
  (`src/unnamed/part_001`, second part): `getEntry`, `loadEntries`, `load`.

Machine integers are modelled as `Nat` with explicit `% 2 ^ w` where the C++
code truncates (casts to `uint16_t` / `uint32_t`).  Byte strings
(`std::string`, `buffer_t`) are `List Nat` of byte values.  Fallible code
returns `Option` / an explicit error component.  Code of the repository that
is not present under `src/` (the `zipRead`/`zipWrite` byte codec, the
`ZipLocalEntry` stream extractor, the deflate output stage, the
`FileCollection` lookup) is modelled from the specification; each such
definition carries a doc comment starting with `Modelled from the spec:`.
-/

namespace Zipios

/-! ## Byte codec

`zipRead` / `zipWrite` live in `zipios_common.hpp`, which is not under
`src/`; the spec (§4.1 ByteCodec) fixes them: little-endian fixed-width
integers, length-prefixed byte strings, failure (`IoError`) when the source
ends early. -/

/-- Modelled from the spec: little-endian 16-bit serialization of an
integer (§4.1); the value is truncated to 16 bits as the C++ `uint16_t`
argument of `zipWrite` would be. -/
def u16le (n : Nat) : List Nat :=
  [n % 256, n / 256 % 256]

/-- Modelled from the spec: little-endian 32-bit serialization of an
integer (§4.1); truncated to 32 bits like a `uint32_t` argument. -/
def u32le (n : Nat) : List Nat :=
  [n % 256, n / 256 % 256, n / 65536 % 256, n / 16777216 % 256]

/-- Little-endian value of a byte list (least significant byte first). -/
def leVal (l : List Nat) : Nat :=
  l.foldr (fun b acc => b % 256 + 256 * acc) 0

/-- The errors surfaced by the embedded code: `IOException` (I/O-level,
spec name `IoError`) and `InvalidStateException` (logic-level, spec name
`InvalidStateError`), from `zipios++/zipiosexceptions` (in
`src/zipios++/gzipoutputstreambuf.h`, second part). -/
inductive ZipiosError where
  | ioException
  | invalidStateException
deriving DecidableEq, Repr

/-- One bit-step of the CRC-32 feedback register (IEEE polynomial
`0xEDB88320`), per spec §4.1. -/
def crcStepBit (c : Nat) : Nat :=
  if c % 2 = 1 then (c / 2) ^^^ 0xEDB88320 else c / 2

/-- Modelled from the spec: CRC-32 accumulation of one byte into the
running register (§4.1: initial value `0xFFFFFFFF`, final XOR applied by
the reader of the register). -/
def crcByte (c b : Nat) : Nat :=
  crcStepBit^[8] (c ^^^ b % 256)

/-! ## Central directory entry (2015-era sources)

Embeds `ZipCentralDirectoryEntry` from the second part of
`src/zipios++/filteroutputstreambuf.h`. -/

/-- The signature of a central directory entry (`g_signature` in the
source). -/
def gSignature : Nat := 0x02014b50

/-- `g_unix` host code (pre-shifted), from the source. -/
def gUnix : Nat := 0x0300

/-- Modelled from the spec: `g_zip_format_version` lives in
`zipios_common.hpp` which is not under `src/`; §4.4 fixes the writer
version as `0x0014` combined with the host code. -/
def gZipFormatVersion : Nat := 0x0014

/-- The fields of `ZipCentralDirectoryEntryHeader` as (size, alignment)
pairs, in declaration order: one `uint32_t`, four `uint16_t`, four
`uint32_t`, five `uint16_t`, two `uint32_t`. -/
def zipCDirHeaderFields : List (Nat × Nat) :=
  [(4,4),(2,2),(2,2),(2,2),(2,2),(4,4),(4,4),(4,4),(4,4),
   (2,2),(2,2),(2,2),(2,2),(2,2),(4,4),(4,4)]

/-- Round `n` up to a multiple of the alignment `a`. -/
def alignUp (n a : Nat) : Nat :=
  (n + a - 1) / a * a

/-- The C++ `sizeof` of a plain struct with the given (size, alignment)
fields: fields are laid out in order, each at the next offset aligned to
its alignment, and the total is padded to the largest field alignment
(the layout rule shared by all mainstream C++ ABIs for a struct with no
packing attribute). -/
def structSizeof (fields : List (Nat × Nat)) : Nat :=
  let r := fields.foldl (fun acc f => (alignUp acc.1 f.2 + f.1, max acc.2 f.2)) (0, 1)
  alignUp r.1 r.2

/-- `sizeof(ZipCentralDirectoryEntryHeader)`: the struct's fields span 46
bytes but two padding bytes are inserted before `m_extern_file_attr`
(offset 38 is not 4-aligned), so the `sizeof` is 48. -/
def sizeofZipCentralDirectoryEntryHeader : Nat :=
  structSizeof zipCDirHeaderFields

/-- The data of a `ZipCentralDirectoryEntry` (fields inherited from
`FileEntry`/`ZipLocalEntry` plus `m_file_comment`).  Byte strings are
lists of byte values. -/
structure ZipCentralDirectoryEntry where
  filename : List Nat := []
  extraField : List Nat := []
  fileComment : List Nat := []
  extractVersion : Nat := 0
  gpBitfield : Nat := 0
  compressMethod : Nat := 0
  unixTime : Nat := 0
  crc32 : Nat := 0
  compressedSize : Nat := 0
  uncompressedSize : Nat := 0
  entryOffset : Nat := 0
  valid : Bool := false
deriving DecidableEq, Repr

/-- `ZipCentralDirectoryEntry::getHeaderSize()` from the source:
`sizeof(ZipCentralDirectoryEntryHeader) + m_filename.size() +
m_extra_field.size() + m_file_comment.size()`. -/
def ZipCentralDirectoryEntry.getHeaderSize (e : ZipCentralDirectoryEntry) : Nat :=
  sizeofZipCentralDirectoryEntryHeader
    + e.filename.length + e.extraField.length + e.fileComment.length

/-- `ZipCentralDirectoryEntry::write(std::ostream&)` from the source.
`u2d` abstracts the external `unix2dostime` routine (TimeCodec, not under
`src/`); the claims proved below hold for every such routine.  The size
guards are verbatim from the source: the string caps compare with
`> 0x10000` and the 64-bit guards with `>= 0x100000000`.  On success the
emitted bytes are returned in order; the length fields truncate to 16
bits exactly as the `uint16_t` locals in the source do, and
`compress_method` passes through a `uint8_t` cast. -/
def ZipCentralDirectoryEntry.write (u2d : Nat → Nat)
    (e : ZipCentralDirectoryEntry) : Except ZipiosError (List Nat) :=
  if e.filename.length > 0x10000 ∨ e.extraField.length > 0x10000
      ∨ e.fileComment.length > 0x10000 then
    .error .invalidStateException
  else if e.compressedSize ≥ 0x100000000 ∨ e.uncompressedSize ≥ 0x100000000
      ∨ e.entryOffset ≥ 0x100000000 then
    .error .invalidStateException
  else
    .ok (u32le gSignature
      ++ u16le (gZipFormatVersion ||| gUnix)
      ++ u16le e.extractVersion
      ++ u16le e.gpBitfield
      ++ u16le (e.compressMethod % 256)
      ++ u32le (u2d e.unixTime)
      ++ u32le e.crc32
      ++ u32le e.compressedSize
      ++ u32le e.uncompressedSize
      ++ u16le e.filename.length
      ++ u16le e.extraField.length
      ++ u16le e.fileComment.length
      ++ u16le 0
      ++ u16le 0
      ++ u32le 0x81B40000
      ++ u32le e.entryOffset
      ++ e.filename ++ e.extraField ++ e.fileComment)

/-! ## Reading a central directory entry

`ZipCentralDirectoryEntry::read(std::istream&)` pulls fixed-width values
with `zipRead`; the stream model is a byte list plus a good/fail flag. -/

/-- A C++ input stream over in-memory bytes: remaining data plus the
good/fail state. -/
structure IStream where
  data : List Nat
  good : Bool := true
deriving DecidableEq, Repr

/-- Modelled from the spec: `zipRead` of `n` raw bytes (§4.1) — consume
exactly `n` bytes, or fail (`IoError`) when the source ends early or is
already in a failed state. -/
def readBytes (n : Nat) (st : IStream) : Option (List Nat × IStream) :=
  if st.good ∧ n ≤ st.data.length then
    some (st.data.take n, { data := st.data.drop n, good := true })
  else
    none

/-- Modelled from the spec: `zipRead` of a `uint16_t` (§4.1,
little-endian). -/
def readU16 (st : IStream) : Option (Nat × IStream) :=
  match readBytes 2 st with
  | some (bs, st') => some (leVal bs, st')
  | none => none

/-- Modelled from the spec: `zipRead` of a `uint32_t` (§4.1,
little-endian). -/
def readU32 (st : IStream) : Option (Nat × IStream) :=
  match readBytes 4 st with
  | some (bs, st') => some (leVal bs, st')
  | none => none

/-- The fixed 42-byte part of a central directory record after the
signature, followed by the three variable-length byte strings, exactly in
the order the source reads them. -/
structure CDirFixedFields where
  writerVersion : Nat
  extractVersion : Nat
  gpBitfield : Nat
  compressMethod : Nat
  dostime : Nat
  crc32 : Nat
  compressedSize : Nat
  uncompressedSize : Nat
  diskNumStart : Nat
  internFileAttr : Nat
  externalFileAttr : Nat
  relOffsetLocHead : Nat
  filename : List Nat
  extraField : List Nat
  fileComment : List Nat
deriving DecidableEq, Repr

/-- Read a run of little-endian integers of the given byte widths, in
order, failing as soon as one `zipRead` fails. -/
def readWidths : List Nat → IStream → Option (List Nat × IStream)
  | [], st => some ([], st)
  | w :: ws, st =>
    match readBytes w st with
    | none => none
    | some (bs, st1) =>
      match readWidths ws st1 with
      | none => none
      | some (vs, st2) => some (leVal bs :: vs, st2)

/-- The sequence of `zipRead` calls of
`ZipCentralDirectoryEntry::read` after the signature check, in source
order: 16, 16, 16, 16, 32, 32, 32, 32, 16, 16, 16, 16, 16, 32, 32 bits
(42 bytes), then `filename_len`, `extra_field_len`, `file_comment_len`
bytes. -/
def readCDirFields (st : IStream) : Option (CDirFixedFields × IStream) :=
  match readWidths [2, 2, 2, 2, 4, 4, 4, 4, 2, 2, 2, 2, 2, 4, 4] st with
  | some ([wv, ev, gp, cm, dt, crc, cs, us, fl, el, cl, dn, ia, ea, ro], st1) =>
    match readBytes fl st1 with
    | none => none
    | some (fn, st2) =>
      match readBytes el st2 with
      | none => none
      | some (ef, st3) =>
        match readBytes cl st3 with
        | none => none
        | some (fc, st4) =>
          some (⟨wv, ev, gp, cm, dt, crc, cs, us, dn, ia, ea, ro, fn, ef, fc⟩, st4)
  | _ => none

/-- Result of `ZipCentralDirectoryEntry::read`: the stream after the
call, the entry after the call, and the exception thrown (if any). -/
structure ReadOutcome where
  stream : IStream
  entry : ZipCentralDirectoryEntry
  thrown : Option ZipiosError
deriving DecidableEq, Repr

/-- `ZipCentralDirectoryEntry::read(std::istream&)` from the source.
`m_valid` is cleared on entry; the 32-bit signature is read and on
mismatch the stream's fail state is set and `IOException` is thrown; the
42-byte fixed header and the three variable strings are then read
(`zipRead` throwing `IOException` on a short source); on complete success
— `if(is)` — `m_valid` is set back to `true`.  `d2u` abstracts the
external `dos2unixtime` routine. -/
def ZipCentralDirectoryEntry.read (d2u : Nat → Nat) (st0 : IStream)
    (e0 : ZipCentralDirectoryEntry) : ReadOutcome :=
  let e := { e0 with valid := false }
  match readU32 st0 with
  | none => ⟨{ st0 with good := false }, e, some .ioException⟩
  | some (signature, st1) =>
    if signature ≠ gSignature then
      ⟨{ st1 with good := false }, e, some .ioException⟩
    else
      match readCDirFields st1 with
      | none => ⟨{ st1 with good := false }, e, some .ioException⟩
      | some (f, st2) =>
        ⟨st2,
         { e with
            extractVersion := f.extractVersion
            gpBitfield := f.gpBitfield
            crc32 := f.crc32
            extraField := f.extraField
            fileComment := f.fileComment
            compressMethod := f.compressMethod
            unixTime := d2u f.dostime
            compressedSize := f.compressedSize
            uncompressedSize := f.uncompressedSize
            entryOffset := f.relOffsetLocHead
            filename := f.filename
            valid := true },
         none⟩

/-! ## Read path: `ZipInputStreambuf` (`src/unnamed/part_000`)

The lower seekable source is a byte list; the streambuf keeps an absolute
position in it.  The `ZipLocalEntry` stream extractor (`is >>
_curr_entry`) is not under `src/`, so it is modelled from the spec (§4.3
read rules over the §6 local-header wire format). -/

/-- `StorageMethod` codes used by the source: `STORED` is 0,
`DEFLATED` is 8. -/
def STORED : Nat := 0

/-- `DEFLATED` storage method code (8). -/
def DEFLATED : Nat := 8

/-- The data of a `ZipLocalEntry` as populated by parsing a local header
on the read path. -/
structure ZipLocalEntry where
  valid : Bool := false
  filename : List Nat := []
  method : Nat := 0
  gpBitfield : Nat := 0
  compressedSize : Nat := 0
  uncompressedSize : Nat := 0
  extraField : List Nat := []
deriving DecidableEq, Repr

/-- The on-disk local header size of an entry:
`30 + len(filename) + len(extra_field)` (spec §3 LocalEntry /
§6 wire format). -/
def localHeaderSize (e : ZipLocalEntry) : Nat :=
  30 + e.filename.length + e.extraField.length

/-- The raw fields of a local file header in wire order (spec §6):
signature, extract_version, gp_bitfield, compression_method, dos_time,
crc32, compressed_size, uncompressed_size, filename, extra_field. -/
structure RawLocalHeader where
  signature : Nat
  extractVersion : Nat
  gpBitfield : Nat
  method : Nat
  dostime : Nat
  crc32 : Nat
  compressedSize : Nat
  uncompressedSize : Nat
  filename : List Nat
  extraField : List Nat
deriving DecidableEq, Repr

/-- Take exactly `n` bytes off a byte list, or fail. -/
def takeExact (n : Nat) (l : List Nat) : Option (List Nat × List Nat) :=
  if n ≤ l.length then some (l.take n, l.drop n) else none

/-- Modelled from the spec: extraction of the raw local file header
fields at the head of a byte list (§6 wire format: 4+2+2+2+4+4+4+4+2+2
fixed bytes, then `filename_len` and `extra_field_len` bytes).  Returns
the fields and the number of bytes consumed, which is
`30 + len(filename) + len(extra_field)` by construction since each
variable part consumes exactly its announced length. -/
def parseRawLocalHeader (l : List Nat) : Option (RawLocalHeader × Nat) :=
  match readWidths [4, 2, 2, 2, 4, 4, 4, 4, 2, 2] { data := l } with
  | some ([sig, ev, gp, m, dt, crc, cs, us, fl, el], st1) =>
    match takeExact fl st1.data with
    | none => none
    | some (fn, rest1) =>
      match takeExact el rest1 with
      | none => none
      | some (ef, _) =>
        some (⟨sig, ev, gp, m, dt, crc, cs, us, fn, ef⟩,
              30 + fn.length + ef.length)
  | _ => none

/-- The local header signature `0x04034B50` (spec §4.3). -/
def gLocalSignature : Nat := 0x04034b50

/-- Modelled from the spec: the `ZipLocalEntry` stream extractor
(§4.3 read): verify the signature, read the fixed header and the
variable parts, and mark the entry invalid when the filename is empty,
the trailing-data-descriptor flag (bit 3 of `gp_bitfield`) is set, or
the method is neither `STORED` nor `DEFLATED`.  A short or unreadable
header yields an invalid entry with nothing consumed. -/
def parseLocalEntry (l : List Nat) : ZipLocalEntry × Nat :=
  match parseRawLocalHeader l with
  | none => ({ valid := false }, 0)
  | some (raw, n) =>
    ({ valid := (raw.signature == gLocalSignature)
          && !raw.filename.isEmpty
          && (raw.gpBitfield &&& 8 == 0)
          && (raw.method == STORED || raw.method == DEFLATED),
       filename := raw.filename,
       method := raw.method,
       gpBitfield := raw.gpBitfield,
       compressedSize := raw.compressedSize,
       uncompressedSize := raw.uncompressedSize,
       extraField := raw.extraField }, n)

/-- The state of a `ZipInputStreambuf`: the lower source's bytes, the
current absolute position in it (the `pubseekoff` cursor), and the
member variables `_open_entry`, `_curr_entry`, `_data_start`,
`_remain`. -/
structure ZipInputState where
  src : List Nat
  pos : Nat := 0
  openEntry : Bool := false
  currEntry : ZipLocalEntry := {}
  dataStart : Nat := 0
  remain : Nat := 0
deriving DecidableEq, Repr

/-- `ZipInputStreambuf::closeEntry()` from the source: if no entry is
open do nothing; otherwise, if the lower source is not already at
`_data_start + _curr_entry.getCompressedSize()`, seek it there. -/
def ZipInputStreambuf.closeEntry (s : ZipInputState) : ZipInputState :=
  if ¬ s.openEntry then s
  else if s.pos ≠ s.dataStart + s.currEntry.compressedSize then
    { s with pos := s.dataStart + s.currEntry.compressedSize }
  else s

/-- The state from which `getNextEntry` parses the next local header:
an open entry is closed first (source lines 49–50). -/
def nextHeaderState (s : ZipInputState) : ZipInputState :=
  if s.openEntry then ZipInputStreambuf.closeEntry s else s

/-- `ZipInputStreambuf::getNextEntry()` from the source: close any open
entry, extract a `ZipLocalEntry` at the current position, and on a valid
entry record `_data_start` and dispatch on the method — `DEFLATED`
resets the inflate engine and opens the entry, `STORED` sets `_remain`
to the uncompressed size and opens the entry, any other method leaves
the entry closed (`Unsupported compression format`); an invalid entry
leaves the entry closed.  Returns the new state and the copy of
`_curr_entry` handed to the caller (`new ZipLocalEntry(_curr_entry)`).
The commented-out throw for trailing-data-descriptor entries (source
lines 78–79) does not alter the state, and no exception aborts the
traversal. -/
def ZipInputStreambuf.getNextEntry (s : ZipInputState) :
    ZipInputState × ZipLocalEntry :=
  let s1 := nextHeaderState s
  let pe := parseLocalEntry (s1.src.drop s1.pos)
  let e := pe.1
  let pos2 := s1.pos + pe.2
  if e.valid then
    let s2 := { s1 with pos := pos2, currEntry := e, dataStart := pos2 }
    if e.method = DEFLATED then
      ({ s2 with openEntry := true }, e)
    else if e.method = STORED then
      ({ s2 with openEntry := true, remain := e.uncompressedSize }, e)
    else
      ({ s2 with openEntry := false }, e)
  else
    ({ s1 with pos := pos2, currEntry := e, openEntry := false }, e)

/-! ## Write path: `ZipOutputStreambuf` (`src/unnamed/part_001`, first part)

The lower sink (`_outbuf`, wrapped in an `ostream`) is modelled as an
append-only trace of emitted records plus the current put position
(`tellp`).  The back-patch of a local header (seek to the header offset,
rewrite, seek back) is recorded in a separate patch list, since it
overwrites bytes already counted in the position.  The deflate stage
(`DeflateOutputStreambuf`, not under `src/`) is modelled from the spec
(§4.8): byte counters, a running CRC-32, and a `finished` flag; the
external compression engine itself is a black box (spec §1), so the
number of compressed bytes it emits on write, flush and finish is a
parameter of the model. -/

/-- The 2000-era `ZipCDirEntry` as used by the write path: a central
directory record with the local-header offset, sizes, CRC and the byte
strings. -/
structure ZipCDirEntry where
  filename : List Nat := []
  extraField : List Nat := []
  comment : List Nat := []
  method : Nat := DEFLATED
  size : Nat := 0
  compressedSize : Nat := 0
  crc : Nat := 0
  localHeaderOffset : Nat := 0
deriving DecidableEq, Repr

/-- Modelled from the spec: `ZipCDirEntry::getLocalHeaderSize()` —
`30 + len(filename) + len(extra_field)` (spec §3 LocalEntry). -/
def ZipCDirEntry.getLocalHeaderSize (e : ZipCDirEntry) : Nat :=
  30 + e.filename.length + e.extraField.length

/-- Modelled from the spec: `ZipCDirEntry::getCDirHeaderSize()` —
`46 + len(filename) + len(extra_field) + len(comment)` (spec §3
CentralEntry). -/
def ZipCDirEntry.getCDirHeaderSize (e : ZipCDirEntry) : Nat :=
  46 + e.filename.length + e.extraField.length + e.comment.length

/-- The 2000-era `EndOfCentralDirectory` record: offset and size of the
central directory, total entry count, archive comment. -/
structure EndOfCentralDirectory where
  cdirOffset : Nat := 0
  cdirSize : Nat := 0
  totalCount : Nat := 0
  comment : List Nat := []
deriving DecidableEq, Repr

/-- The records a `ZipOutputStreambuf` emits to its lower sink, each
advancing the put position by its on-disk size. -/
inductive OutRec where
  /-- A local header written by `putNextEntry`
      (`os << static_cast<ZipLocalEntry>(ent)`). -/
  | localHeader (e : ZipCDirEntry)
  /-- `n` compressed payload bytes produced by the deflate stage. -/
  | payload (n : Nat)
  /-- A central directory record written by `writeCentralDirectory`. -/
  | cdirRecord (e : ZipCDirEntry)
  /-- The end-of-central-directory record (comment included). -/
  | eocdRecord (e : EndOfCentralDirectory)
deriving DecidableEq, Repr

/-- The on-disk byte size of an emitted record (local header 30+…,
central record 46+…, EOCD 22+comment, payload as is). -/
def OutRec.byteSize : OutRec → Nat
  | .localHeader e => e.getLocalHeaderSize
  | .payload n => n
  | .cdirRecord e => e.getCDirHeaderSize
  | .eocdRecord e => 22 + e.comment.length

/-- The state of the deflate output stage (spec §4.8): the uncompressed
bytes offered since the last `init`, the two byte counters, the CRC-32
register, and the `finished` flag. -/
structure DeflateState where
  offered : List Nat := []
  uncompressedCount : Nat := 0
  compressedCount : Nat := 0
  crcReg : Nat := 0xFFFFFFFF
  finished : Bool := false
deriving DecidableEq, Repr

/-- The CRC-32 value of the bytes offered so far (final XOR of the
register, spec §4.1). -/
def DeflateState.crc32 (d : DeflateState) : Nat :=
  d.crcReg ^^^ 0xFFFFFFFF

/-- The external compression engine (spec §1 treats it as a black box):
how many compressed bytes reach the sink when a byte is pushed, when the
stream is partially flushed (`sync`), and when it is closed
(`closeStream`), as a function of the bytes offered so far.  Every
theorem below holds for an arbitrary engine. -/
structure DeflateEngine where
  stepBytes : List Nat → Nat
  syncBytes : List Nat → Nat
  finishBytes : List Nat → Nat

/-- A concrete engine used by the closed evaluation theorems: it emits
no bytes until flush. -/
def silentEngine : DeflateEngine :=
  ⟨fun _ => 0, fun _ => 0, fun _ => 0⟩

/-- The state of a `ZipOutputStreambuf`: the member variables
`_entries`, `_open_entry`, `_open`, `_method`, `_level`, `_zip_comment`,
the lower sink's emitted records and put position, the back-patches
performed so far (offset and rewritten entry), and the deflate stage. -/
structure ZipOutputState where
  entries : List ZipCDirEntry := []
  openEntry : Bool := false
  isOpen : Bool := true
  method : Nat := DEFLATED
  level : Nat := 6
  zipComment : List Nat := []
  sink : List OutRec := []
  sinkPos : Nat := 0
  patches : List (Nat × ZipCDirEntry) := []
  codec : DeflateState := {}
deriving Repr

/-- Modelled from the spec: `DeflateOutputStreambuf::init(level)` —
reinitialize the compression engine for a fresh stream (counters and CRC
reset, not finished) (§4.8, §4.10 `putNextEntry`). -/
def deflInit : DeflateState := {}

/-- Modelled from the spec: `DeflateOutputStreambuf::overflow(c)` —
after `finish()` any subsequent overflow is an error (§4.8); otherwise
the byte is counted, the CRC updated, and whatever the engine produces
goes to the sink. -/
def deflOverflow (E : DeflateEngine) (d : DeflateState) (c : Nat) :
    Option (DeflateState × Nat) :=
  if d.finished then none
  else
    some ({ d with
              offered := d.offered ++ [c],
              uncompressedCount := d.uncompressedCount + 1,
              crcReg := crcByte d.crcReg c },
          E.stepBytes (d.offered ++ [c]))

/-- `ZipOutputStreambuf::overflow(c)` from the source: it simply
returns `DeflateOutputStreambuf::overflow(c)` — neither `_open` nor
`_open_entry` is consulted (the `FIXME: implement` comment marks the
missing check).  `none` models an error return. -/
def ZipOutputStreambuf.overflow (E : DeflateEngine) (s : ZipOutputState)
    (c : Nat) : Option ZipOutputState :=
  match deflOverflow E s.codec c with
  | none => none
  | some (d, n) =>
    some { s with codec := d,
                  sink := s.sink ++ [.payload n],
                  sinkPos := s.sinkPos + n }

/-- Modelled from the spec: `DeflateOutputStreambuf::sync()` — partial
flush: the compressed form of everything offered so far is in the lower
sink afterwards, without closing the stream (§4.8). -/
def zipSync (E : DeflateEngine) (s : ZipOutputState) : ZipOutputState :=
  let n := E.syncBytes s.codec.offered
  { s with codec := { s.codec with compressedCount := s.codec.compressedCount + n },
           sink := s.sink ++ [.payload n],
           sinkPos := s.sinkPos + n }

/-- Modelled from the spec: `DeflateOutputStreambuf::closeStream()` —
close the deflate stream, emit the trailing bytes, and mark the codec
finished (§4.8 `finish`). -/
def closeStream (E : DeflateEngine) (s : ZipOutputState) : ZipOutputState :=
  let n := E.finishBytes s.codec.offered
  { s with codec := { s.codec with
                        compressedCount := s.codec.compressedCount + n,
                        finished := true },
           sink := s.sink ++ [.payload n],
           sinkPos := s.sinkPos + n }

/-- `ZipOutputStreambuf::updateEntryHeaderInfo()` from the source: if no
entry is open do nothing; otherwise `sync()`, record `curr_pos =
os.tellp()`, then in `_entries.back()` set the uncompressed size to `0`
(the `/*FIXME!!*/` in the source) and the compressed size to
`curr_pos - getLocalHeaderOffset() - getLocalHeaderSize()`, seek to the
header offset, rewrite the local header there, and seek back to
`curr_pos` (the CRC field of the entry is never touched).  `_entries` is
non-empty whenever an entry is open; on an empty list the source's
`back()` has no defined meaning and the model leaves the state
unchanged. -/
def ZipOutputStreambuf.updateEntryHeaderInfo (E : DeflateEngine)
    (s : ZipOutputState) : ZipOutputState :=
  if ¬ s.openEntry then s
  else
    let s1 := zipSync E s
    let currPos := s1.sinkPos
    match s1.entries.getLast? with
    | none => s1
    | some e =>
      let e1 := { e with
                    size := 0,
                    compressedSize :=
                      currPos - e.localHeaderOffset - e.getLocalHeaderSize }
      { s1 with entries := s1.entries.dropLast ++ [e1],
                patches := s1.patches ++ [(e1.localHeaderOffset, e1)],
                sinkPos := currPos }

/-- `ZipOutputStreambuf::setEntryClosedState()` from the source: clears
`_open_entry` (the put-pointer update announced by the `FIXME` comment
is absent). -/
def setEntryClosedState (s : ZipOutputState) : ZipOutputState :=
  { s with openEntry := false }

/-- `ZipOutputStreambuf::closeEntry()` from the source: if no entry is
open do nothing, else `closeStream()`, `updateEntryHeaderInfo()`,
`setEntryClosedState()`. -/
def ZipOutputStreambuf.closeEntry (E : DeflateEngine)
    (s : ZipOutputState) : ZipOutputState :=
  if ¬ s.openEntry then s
  else
    setEntryClosedState
      (ZipOutputStreambuf.updateEntryHeaderInfo E (closeStream E s))

/-- `ZipOutputStreambuf::putNextEntry(entry)` from the source: close any
open entry; if the method is `DEFLATED`, `init(_level)` the codec;
append the entry to `_entries`; set its local-header offset to the
current put position and its method to `_method`; write the local
header; mark the entry open. -/
def ZipOutputStreambuf.putNextEntry (E : DeflateEngine)
    (s : ZipOutputState) (entry : ZipCDirEntry) : ZipOutputState :=
  let s1 := if s.openEntry then ZipOutputStreambuf.closeEntry E s else s
  let s2 := if s1.method = DEFLATED then { s1 with codec := deflInit } else s1
  let ent := { entry with localHeaderOffset := s2.sinkPos, method := s2.method }
  { s2 with entries := s2.entries ++ [ent],
            sink := s2.sink ++ [.localHeader ent],
            sinkPos := s2.sinkPos + ent.getLocalHeaderSize,
            openEntry := true }

/-- An `ostream` position-and-trace pair, as `writeCentralDirectory`
sees the sink. -/
structure OStreamM where
  recs : List OutRec
  pos : Nat
deriving Repr

/-- The loop body of `writeCentralDirectory`: write one central
directory record and accumulate its `getCDirHeaderSize` into
`cdir_size`. -/
def writeCDirStep (acc : OStreamM × Nat) (e : ZipCDirEntry) : OStreamM × Nat :=
  (⟨acc.1.recs ++ [.cdirRecord e], acc.1.pos + e.getCDirHeaderSize⟩,
   acc.2 + e.getCDirHeaderSize)

/-- `ZipOutputStreambuf::writeCentralDirectory(entries, eocd, os)` from
the source: record `cdir_start = os.tellp()`; write each entry's
central directory record in order, summing `getCDirHeaderSize()` into
`cdir_size`; then set the EOCD's offset, size and total count and write
the EOCD record. -/
def ZipOutputStreambuf.writeCentralDirectory (entries : List ZipCDirEntry)
    (eocd0 : EndOfCentralDirectory) (os : OStreamM) : OStreamM :=
  let cdirStart := os.pos
  let r := entries.foldl writeCDirStep (os, 0)
  let eocd := { eocd0 with cdirOffset := cdirStart,
                           cdirSize := r.2,
                           totalCount := entries.length }
  ⟨r.1.recs ++ [.eocdRecord eocd], r.1.pos + OutRec.byteSize (.eocdRecord eocd)⟩

/-- `ZipOutputStreambuf::finish()` from the source: `closeEntry()`, then
`writeCentralDirectory(_entries, _zip_comment, os)` (the EOCD argument
is constructed from the archive comment), then `_open = false`.  There
is no guard against calling it again. -/
def ZipOutputStreambuf.finish (E : DeflateEngine) (s : ZipOutputState) :
    ZipOutputState :=
  let s1 := ZipOutputStreambuf.closeEntry E s
  let os := ZipOutputStreambuf.writeCentralDirectory s1.entries
      { comment := s1.zipComment } ⟨s1.sink, s1.sinkPos⟩
  { s1 with sink := os.recs, sinkPos := os.pos, isOpen := false }

/-- `ZipOutputStreambuf::~ZipOutputStreambuf()` from the source: the
destructor calls `finish()`. -/
def ZipOutputStreambuf.destructor (E : DeflateEngine) (s : ZipOutputState) :
    ZipOutputState :=
  ZipOutputStreambuf.finish E s

/-! ## Directory-backed collection (`src/unnamed/part_001`, second part)

The filesystem below `m_filepath` is modelled as a tree; paths are lists
of name components.  `FileCollection::getEntry` and the validity probe of
a freshly constructed `DirEntry` are not under `src/`, so they are
modelled from the spec (§4.6 Index lookup; a probe entry is valid iff
the probed path exists). -/

mutual

/-- A filesystem node: a plain file or a directory with children. -/
inductive FSTree where
  | file (name : String)
  | dir (name : String) (children : FSForest)

/-- A list of sibling filesystem nodes (kept as a mutual inductive so
that the directory walker is plain structural recursion). -/
inductive FSForest where
  | nil
  | cons (t : FSTree) (ts : FSForest)

end

/-- The name of a node. -/
def FSTree.name : FSTree → String
  | .file n => n
  | .dir n _ => n

/-- The first sibling with the given name, if any. -/
def FSForest.find (p : String) : FSForest → Option FSTree
  | .nil => none
  | .cons t ts => if t.name == p then some t else FSForest.find p ts

/-- The `MatchPath` lookup modes of `FileCollection::getEntry`. -/
inductive MatchPath where
  | IGNORE
  | MATCH
deriving DecidableEq, Repr

/-- The names `DirectoryCollection::load` skips
(`"." || ".." || "..."`). -/
def isDotName (n : String) : Bool :=
  n == "." || n == ".." || n == "..."

mutual

/-- `DirectoryCollection::load(recursive, subdir)` from the source, on
one directory item: skip dot names; recurse into a directory when
`recursive` is set (the directory itself yields no entry), otherwise
push `subdir + name` as an entry; a file always pushes
`subdir + name`. -/
def loadTree (recursive : Bool) (subdir : List String) :
    FSTree → List (List String)
  | .file n => if isDotName n then [] else [subdir ++ [n]]
  | .dir n cs =>
    if isDotName n then []
    else if recursive then loadTree.forest recursive (subdir ++ [n]) cs
    else [subdir ++ [n]]

/-- The iteration of `DirectoryCollection::load` over the items of one
directory, in order. -/
def loadTree.forest (recursive : Bool) (subdir : List String) :
    FSForest → List (List String)
  | .nil => []
  | .cons t ts =>
    loadTree recursive subdir t ++ loadTree.forest recursive subdir ts

end

/-- `DirectoryCollection::load(recursive)` as called by `loadEntries`:
walk the collection's directory with an empty `subdir`. -/
def load (recursive : Bool) (ts : FSForest) : List (List String) :=
  loadTree.forest recursive [] ts

/-- Whether the tree rooted at the given sibling list contains a node at
the given component path (used by the filesystem probe). -/
def fsHasPath (ts : FSForest) : List String → Bool
  | [] => false
  | [n] => (ts.find n).isSome
  | n :: rest =>
    match ts.find n with
    | some (.dir _ cs) => fsHasPath cs rest
    | _ => false

/-- Modelled from the spec: the path-tail relation of the `MATCH` lookup
mode (§4.6): the query `q` matches the entry name `n` iff `n == q` or
`n` ends in `"/" + q` — with component lists, iff `q` is a suffix of `n`
(a proper one in the second case). -/
def tailMatch (n q : List String) : Bool :=
  n == q || (List.isSuffixOf q n && decide (q.length < n.length))

/-- Modelled from the spec: `FileCollection::getEntry(name, matchpath)`
(§4.6): scan the entries in insertion order and return the first one
whose name matches — exactly for `IGNORE`, by the path-tail relation for
`MATCH`. -/
def fileCollectionGetEntry (entries : List (List String))
    (q : List String) : MatchPath → Option (List String)
  | .IGNORE => entries.find? (fun n => n == q)
  | .MATCH => entries.find? (fun n => tailMatch n q)

/-- The state of a `DirectoryCollection`: `m_valid`,
`m_entries_loaded`, `m_recursive`, the contents of `m_filepath`, and
`m_entries` (entry names as component paths). -/
structure DirectoryCollection where
  valid : Bool := true
  entriesLoaded : Bool := false
  recursive : Bool := true
  root : FSForest := .nil
  entries : List (List String) := []

/-- `DirectoryCollection::loadEntries()` from the source: if
`m_entries_loaded` do nothing; otherwise `load(m_recursive)` populates
`m_entries` and `m_entries_loaded` is set. -/
def DirectoryCollection.loadEntries (dc : DirectoryCollection) :
    DirectoryCollection :=
  if dc.entriesLoaded then dc
  else { dc with entries := dc.entries ++ load dc.recursive dc.root,
                 entriesLoaded := true }

/-- `DirectoryCollection::getEntry(name, matchpath)` from the source:
`mustBeValid()` throws `InvalidStateException` on a closed collection;
when the mode is not `MATCH` or the entries are already loaded, load the
entries and delegate to `FileCollection::getEntry`; otherwise — to
"avoid loading entries if possible" — construct a `DirEntry` for
`m_filepath + name` and return it when it is valid (modelled from the
spec: the probe is valid iff the path exists below the root), else
nothing. -/
def DirectoryCollection.getEntry (dc : DirectoryCollection)
    (name : List String) (matchpath : MatchPath) :
    Except ZipiosError (Option (List String)) :=
  if ¬ dc.valid then .error .invalidStateException
  else if matchpath ≠ MatchPath.MATCH ∨ dc.entriesLoaded then
    .ok (fileCollectionGetEntry dc.loadEntries.entries name matchpath)
  else if fsHasPath dc.root name then .ok (some name)
  else .ok none

/-! ## Concrete inputs used by the closed evaluation theorems -/

/-- A one-byte-filename central directory entry (no extra field, no
comment). -/
def c5entry : ZipCentralDirectoryEntry := { filename := [97] }

/-- A filename of 65 536 bytes — one more than fits in the 16-bit
`filename_len` wire field. -/
def c6filename : List Nat := List.replicate 65536 97

/-- A central directory entry whose filename is 65 536 bytes long. -/
def c6entry : ZipCentralDirectoryEntry := { filename := c6filename }

/-- A write-path state with one open entry whose local header was
written at offset 10 (header size `30 + 1 = 31`), the sink now at
position 100, after 5 bytes were pushed through the codec. -/
def c1state : ZipOutputState :=
  { entries := [{ filename := [97], crc := 7, localHeaderOffset := 10 }],
    openEntry := true,
    sinkPos := 100,
    codec := { offered := [1, 2, 3, 4, 5], uncompressedCount := 5,
               crcReg := 123 } }

/-! ## Theorems for the claims -/

/-- C5: the claim states that `getHeaderSize` returns
`46 + len(filename) + len(extra_field) + len(comment)`.  It does not:
`sizeof(ZipCentralDirectoryEntryHeader)` is 48, not 46, because two
padding bytes precede `m_extern_file_attr` (offset 38 must be rounded
to 40), so `getHeaderSize` over-reports by 2 — while `write()` emits
exactly `46 + lengths` bytes for the same entry, contradicting
`write()`'s own documentation that `getHeaderSize()` gives the size of
the emitted block. -/
theorem claim_C5_getHeaderSize_disagrees_with_wire_size :
    sizeofZipCentralDirectoryEntryHeader = 48
    ∧ ZipCentralDirectoryEntry.getHeaderSize c5entry = 49
    ∧ ZipCentralDirectoryEntry.getHeaderSize c5entry ≠ 46 + 1 + 0 + 0
    ∧ (ZipCentralDirectoryEntry.write (fun t => t) c5entry).map List.length
        = Except.ok 47 := by
  refine ⟨by decide, by decide, by decide, ?_⟩
  rfl

/-- C6: the claim states that `write` raises `InvalidStateError`
whenever the filename exceeds 65 535 bytes.  The source guard compares
with `> 0x10000` (65 536), so a 65 536-byte filename is accepted and
the record is emitted with its 16-bit `filename_len` field truncated to
zero. -/
theorem claim_C6_oversized_filename_not_rejected :
    c6filename.length > 65535
    ∧ (ZipCentralDirectoryEntry.write (fun t => t) c6entry).isOk = true
    ∧ u16le c6filename.length = [0, 0] := by
  have hlen : c6filename.length = 65536 := by
    simp only [c6filename, List.length_replicate]
  have hguard1 : ¬(c6entry.filename.length > 0x10000
      ∨ c6entry.extraField.length > 0x10000
      ∨ c6entry.fileComment.length > 0x10000) := by
    simp only [c6entry]
    rw [hlen]
    norm_num
  have hguard2 : ¬(c6entry.compressedSize ≥ 0x100000000
      ∨ c6entry.uncompressedSize ≥ 0x100000000
      ∨ c6entry.entryOffset ≥ 0x100000000) := by
    simp only [c6entry]
    norm_num
  refine ⟨?_, ?_, ?_⟩
  · rw [hlen]
    norm_num
  · unfold ZipCentralDirectoryEntry.write
    rw [if_neg hguard1, if_neg hguard2]
    rfl
  · rw [hlen]
    decide

/-- C8: the claim states that after `finish()` the archive is marked
closed and any subsequent `overflow` is an error.  `finish()` does set
`_open = false`, but `ZipOutputStreambuf::overflow` forwards to the
deflate stage without consulting `_open` or `_open_entry` (the source
carries `FIXME: implement` there), so on a stream whose codec was never
closed (here: no entry was ever opened) the write after `finish()`
succeeds. -/
theorem claim_C8_write_after_finish_not_an_error :
    (ZipOutputStreambuf.finish silentEngine {}).isOpen = false
    ∧ (ZipOutputStreambuf.overflow silentEngine
          (ZipOutputStreambuf.finish silentEngine {}) 97).isSome = true := by
  constructor
  · rfl
  · rfl

/-- C1: the claim states that the back-patch performed by
`closeEntry()`/`updateEntryHeaderInfo()` sets `compressed_size` to
`cur_pos - entry_offset - header_size` and sets `uncompressed_size` and
`crc32` from the codec counters, then restores the sink position.  The
compressed size and the position restoration behave as claimed, but the
source sets the uncompressed size to `0` (the `/*FIXME!!*/`) and never
touches the entry's CRC: here 5 bytes went through the codec
(`uncompressed_count = 5`), yet the patched header carries
`uncompressed_size = 0` and the constructor-supplied CRC `7`. -/
theorem claim_C1_backpatch_ignores_codec_counters :
    (ZipOutputStreambuf.updateEntryHeaderInfo silentEngine c1state).entries
      = [{ filename := [97], crc := 7, localHeaderOffset := 10,
           size := 0, compressedSize := 100 - 10 - 31 }]
    ∧ (ZipOutputStreambuf.updateEntryHeaderInfo silentEngine c1state).sinkPos
        = c1state.sinkPos
    ∧ c1state.codec.uncompressedCount = 5
    ∧ (0 : Nat) ≠ c1state.codec.uncompressedCount
    ∧ (7 : Nat) ≠ c1state.codec.crc32
    ∧ (ZipOutputStreambuf.updateEntryHeaderInfo silentEngine c1state).patches
      = [(10, { filename := [97], crc := 7, localHeaderOffset := 10,
                size := 0, compressedSize := 59 })] := by
  refine ⟨by decide, by decide, by decide, by decide, by decide, by decide⟩

/-- The example directory: `m_filepath` contains a subdirectory `sub`
holding a single file `x.txt`. -/
def c10root : FSForest := .cons (.dir "sub" (.cons (.file "x.txt") .nil)) .nil

/-- The collection over that directory, entries not yet loaded. -/
def c10dc : DirectoryCollection := { root := c10root }

/-- C10: before the entries are loaded, `getEntry(name, MATCH)` probes
the filesystem path `m_filepath + name` directly instead of path-tail
matching over the entry index; for this directory the probe for
`x.txt` finds nothing (no such direct child), while the identical call
after loading path-tail-matches the entry `sub/x.txt` — the two results
differ. -/
theorem claim_C10_match_lookup_differs_before_load :
    DirectoryCollection.getEntry c10dc ["x.txt"] MatchPath.MATCH = .ok none
    ∧ DirectoryCollection.getEntry c10dc.loadEntries ["x.txt"] MatchPath.MATCH
        = .ok (some ["sub", "x.txt"])
    ∧ c10dc.entriesLoaded = false
    ∧ c10dc.loadEntries.entriesLoaded = true
    ∧ DirectoryCollection.getEntry c10dc ["x.txt"] MatchPath.MATCH
        ≠ DirectoryCollection.getEntry c10dc.loadEntries ["x.txt"] MatchPath.MATCH := by
  have h1 : DirectoryCollection.getEntry c10dc ["x.txt"] MatchPath.MATCH
      = .ok none := rfl
  have h2 : DirectoryCollection.getEntry c10dc.loadEntries ["x.txt"]
      MatchPath.MATCH = .ok (some ["sub", "x.txt"]) := rfl
  refine ⟨h1, h2, rfl, rfl, ?_⟩
  rw [h1, h2]
  intro h
  injection h with h3
  exact Option.noConfusion h3

/-! ### Parse lemmas for the read path -/

/-- A successful raw local-header parse consumes exactly
`30 + len(filename) + len(extra_field)` bytes. -/
theorem parseRawLocalHeader_consumed {l : List Nat} {raw : RawLocalHeader}
    {n : Nat} (h : parseRawLocalHeader l = some (raw, n)) :
    n = 30 + raw.filename.length + raw.extraField.length := by
  unfold parseRawLocalHeader at h
  split at h
  · split at h
    · exact Option.noConfusion h
    · split at h
      · exact Option.noConfusion h
      · injection h with h1
        injection h1 with hraw hn
        subst hraw
        subst hn
        rfl
  · exact Option.noConfusion h

/-- A local entry that parses as valid has consumed exactly its
on-disk header size. -/
theorem parseLocalEntry_valid_consumed (l : List Nat)
    (h : (parseLocalEntry l).1.valid = true) :
    (parseLocalEntry l).2 = localHeaderSize (parseLocalEntry l).1 := by
  cases hp : parseRawLocalHeader l with
  | none =>
    unfold parseLocalEntry at h
    rw [hp] at h
    simp at h
  | some p =>
    obtain ⟨raw, n⟩ := p
    unfold parseLocalEntry
    rw [hp]
    dsimp only [localHeaderSize]
    exact parseRawLocalHeader_consumed hp

/-- A local entry that parses as valid has method `STORED` or
`DEFLATED` (the §4.3 validation includes the method check). -/
theorem parseLocalEntry_valid_method (l : List Nat)
    (h : (parseLocalEntry l).1.valid = true) :
    (parseLocalEntry l).1.method = STORED
      ∨ (parseLocalEntry l).1.method = DEFLATED := by
  cases hp : parseRawLocalHeader l with
  | none =>
    unfold parseLocalEntry at h
    rw [hp] at h
    simp at h
  | some p =>
    obtain ⟨raw, n⟩ := p
    unfold parseLocalEntry at h ⊢
    rw [hp] at h ⊢
    dsimp only at h ⊢
    simp only [Bool.and_eq_true, Bool.or_eq_true, beq_iff_eq] at h
    exact h.2

/-- A raw header whose method is unknown or whose
trailing-data-descriptor bit is set parses as an invalid entry. -/
theorem parseLocalEntry_invalid (l : List Nat) (raw : RawLocalHeader)
    (n : Nat) (hp : parseRawLocalHeader l = some (raw, n))
    (hbad : (raw.method ≠ STORED ∧ raw.method ≠ DEFLATED)
      ∨ raw.gpBitfield &&& 8 ≠ 0) :
    (parseLocalEntry l).1.valid = false := by
  unfold parseLocalEntry
  rw [hp]
  dsimp only
  rcases hbad with ⟨h1, h2⟩ | h3
  · have d1 : (raw.method == STORED) = false := beq_eq_false_iff_ne.mpr h1
    have d2 : (raw.method == DEFLATED) = false := beq_eq_false_iff_ne.mpr h2
    simp [d1, d2]
  · have d3 : (raw.gpBitfield &&& 8 == 0) = false := beq_eq_false_iff_ne.mpr h3
    simp [d3]

/-- On a state with an open entry, `closeEntry` always lands the lower
source at `_data_start + compressed_size`, no matter where the
consumer's reads left the cursor. -/
theorem closeEntryR_pos (t : ZipInputState) (h : t.openEntry = true) :
    (ZipInputStreambuf.closeEntry t).pos
      = t.dataStart + t.currEntry.compressedSize := by
  unfold ZipInputStreambuf.closeEntry
  rw [if_neg (by simp [h])]
  split
  · rfl
  · rename_i hne
    exact not_not.mp hne

/-- When `getNextEntry` opens an entry, `_data_start` is the parse
position plus the entry's local header size, and `_curr_entry` is the
parsed entry. -/
theorem getNextEntry_open_spec (s : ZipInputState)
    (h : (ZipInputStreambuf.getNextEntry s).1.openEntry = true) :
    (ZipInputStreambuf.getNextEntry s).1.dataStart
      = (nextHeaderState s).pos
        + localHeaderSize (ZipInputStreambuf.getNextEntry s).1.currEntry
    ∧ (ZipInputStreambuf.getNextEntry s).1.currEntry
      = (parseLocalEntry
          ((nextHeaderState s).src.drop (nextHeaderState s).pos)).1 := by
  have hv : (parseLocalEntry
      ((nextHeaderState s).src.drop (nextHeaderState s).pos)).1.valid
        = true := by
    by_contra hv
    unfold ZipInputStreambuf.getNextEntry at h
    dsimp only at h
    rw [if_neg hv] at h
    simp at h
  have hm := parseLocalEntry_valid_method
    ((nextHeaderState s).src.drop (nextHeaderState s).pos) hv
  unfold ZipInputStreambuf.getNextEntry
  dsimp only
  rw [if_pos hv]
  rcases hm with h0 | h8
  · rw [if_neg (by rw [h0]; decide), if_pos h0]
    dsimp only
    refine ⟨?_, rfl⟩
    rw [parseLocalEntry_valid_consumed _ hv]
  · rw [if_pos h8]
    dsimp only
    refine ⟨?_, rfl⟩
    rw [parseLocalEntry_valid_consumed _ hv]

/-- C2: after `getNextEntry` opens an entry, `closeEntry` leaves the
lower source at `data_start + compressed_size` — equal to
`entry_offset + local_header_size + compressed_size` where
`entry_offset` is the position the header was parsed at — regardless of
the cursor position the consumer's reads produced, and the next
`getNextEntry` parses at exactly that position. -/
theorem claim_C2_closeEntry_position (s : ZipInputState)
    (h : (ZipInputStreambuf.getNextEntry s).1.openEntry = true) :
    (∀ p, (ZipInputStreambuf.closeEntry
          { (ZipInputStreambuf.getNextEntry s).1 with pos := p }).pos
        = (ZipInputStreambuf.getNextEntry s).1.dataStart
          + (ZipInputStreambuf.getNextEntry s).1.currEntry.compressedSize)
    ∧ (ZipInputStreambuf.getNextEntry s).1.dataStart
        = (nextHeaderState s).pos
          + localHeaderSize (ZipInputStreambuf.getNextEntry s).1.currEntry
    ∧ (∀ p, (nextHeaderState
            { (ZipInputStreambuf.getNextEntry s).1 with pos := p }).pos
        = (nextHeaderState s).pos
          + localHeaderSize (ZipInputStreambuf.getNextEntry s).1.currEntry
          + (ZipInputStreambuf.getNextEntry s).1.currEntry.compressedSize) := by
  have hspec := getNextEntry_open_spec s h
  have hclose : ∀ p, (ZipInputStreambuf.closeEntry
        { (ZipInputStreambuf.getNextEntry s).1 with pos := p }).pos
      = (ZipInputStreambuf.getNextEntry s).1.dataStart
        + (ZipInputStreambuf.getNextEntry s).1.currEntry.compressedSize := by
    intro p
    exact closeEntryR_pos _ (by simpa using h)
  refine ⟨hclose, hspec.1, ?_⟩
  intro p
  have hopen : ({ (ZipInputStreambuf.getNextEntry s).1 with pos := p }
      : ZipInputState).openEntry = true := h
  unfold nextHeaderState
  rw [if_pos hopen]
  rw [hclose p, hspec.1]
  rfl

/-- C4: a local header whose compression method is neither `STORED` nor
`DEFLATED`, or whose `gp_bitfield` bit 3 (trailing data descriptor) is
set, leaves the stream with no entry open and hands the caller an
invalid entry; no exception aborts traversal (the model is a total
function), and any later `getNextEntry` that reaches a valid header
opens it. -/
theorem claim_C4_bad_method_or_descriptor_rejected (s : ZipInputState)
    (raw : RawLocalHeader) (n : Nat)
    (h1 : parseRawLocalHeader
        ((nextHeaderState s).src.drop (nextHeaderState s).pos)
      = some (raw, n))
    (h2 : (raw.method ≠ STORED ∧ raw.method ≠ DEFLATED)
      ∨ raw.gpBitfield &&& 8 ≠ 0) :
    (ZipInputStreambuf.getNextEntry s).1.openEntry = false
    ∧ (ZipInputStreambuf.getNextEntry s).2.valid = false
    ∧ (∀ t : ZipInputState,
        (parseLocalEntry
            ((nextHeaderState t).src.drop (nextHeaderState t).pos)).1.valid
          = true →
        (ZipInputStreambuf.getNextEntry t).1.openEntry = true) := by
  have hinv : (parseLocalEntry
      ((nextHeaderState s).src.drop (nextHeaderState s).pos)).1.valid
        = false :=
    parseLocalEntry_invalid _ _ _ h1 h2
  refine ⟨?_, ?_, ?_⟩
  · unfold ZipInputStreambuf.getNextEntry
    dsimp only
    rw [if_neg (by simp [hinv])]
  · unfold ZipInputStreambuf.getNextEntry
    dsimp only
    rw [if_neg (by simp [hinv])]
    exact hinv
  · intro t hvt
    have hm := parseLocalEntry_valid_method _ hvt
    unfold ZipInputStreambuf.getNextEntry
    dsimp only
    rw [if_pos (by simp [hvt])]
    rcases hm with h0 | h8
    · rw [if_neg (by rw [h0]; decide), if_pos h0]
    · rw [if_pos h8]

/-- A concrete archive: one `DEFLATED` local header (filename `a`,
compressed size 3, uncompressed size 5) followed by 3 payload bytes. -/
def c2src : List Nat :=
  [0x50, 0x4B, 0x03, 0x04,
   20, 0,
   0, 0,
   8, 0,
   0, 0, 0, 0,
   0, 0, 0, 0,
   3, 0, 0, 0,
   5, 0, 0, 0,
   1, 0,
   0, 0,
   97,
   9, 9, 9]

/-- A fresh read-path state over that archive. -/
def c2state : ZipInputState := { src := c2src }

/-- Witness for C2: the concrete archive opens its entry, and
`data_start` is the parse position plus the 31-byte local header. -/
theorem claim_C2_witness :
    (ZipInputStreambuf.getNextEntry c2state).1.openEntry = true
    ∧ (ZipInputStreambuf.getNextEntry c2state).1.dataStart
        = (nextHeaderState c2state).pos
          + localHeaderSize (ZipInputStreambuf.getNextEntry c2state).1.currEntry
    ∧ (ZipInputStreambuf.closeEntry (ZipInputStreambuf.getNextEntry c2state).1).pos
        = (ZipInputStreambuf.getNextEntry c2state).1.dataStart
          + (ZipInputStreambuf.getNextEntry c2state).1.currEntry.compressedSize :=
  ⟨by decide,
   (claim_C2_closeEntry_position c2state (by decide)).2.1,
   by
     have hc := (claim_C2_closeEntry_position c2state (by decide)).1
        (ZipInputStreambuf.getNextEntry c2state).1.pos
     simpa using hc⟩

/-- A concrete archive whose single local header announces compression
method 3 (neither `STORED` nor `DEFLATED`). -/
def c4src : List Nat :=
  [0x50, 0x4B, 0x03, 0x04,
   20, 0,
   0, 0,
   3, 0,
   0, 0, 0, 0,
   0, 0, 0, 0,
   3, 0, 0, 0,
   5, 0, 0, 0,
   1, 0,
   0, 0,
   97]

/-- A fresh read-path state over the bad-method archive. -/
def c4state : ZipInputState := { src := c4src }

/-- The raw header fields of that archive. -/
def c4raw : RawLocalHeader :=
  { signature := 0x04034b50, extractVersion := 20, gpBitfield := 0,
    method := 3, dostime := 0, crc32 := 0, compressedSize := 3,
    uncompressedSize := 5, filename := [97], extraField := [] }

/-- Witness for C4: the method-3 header is parsed, rejected, and leaves
the stream with no open entry and an invalid returned entry. -/
theorem claim_C4_witness :
    parseRawLocalHeader
        ((nextHeaderState c4state).src.drop (nextHeaderState c4state).pos)
      = some (c4raw, 31)
    ∧ (ZipInputStreambuf.getNextEntry c4state).1.openEntry = false
    ∧ (ZipInputStreambuf.getNextEntry c4state).2.valid = false :=
  ⟨by decide,
   (claim_C4_bad_method_or_descriptor_rejected c4state c4raw 31 (by decide)
      (Or.inl ⟨by decide, by decide⟩)).1,
   (claim_C4_bad_method_or_descriptor_rejected c4state c4raw 31 (by decide)
      (Or.inl ⟨by decide, by decide⟩)).2.1⟩

/-- C7: for every incoming stream, `ZipCentralDirectoryEntry::read`
returns an entry whose `valid` flag is `true` exactly when the whole
record was read without an exception; a record whose 32-bit signature is
not `0x02014B50` sets the stream's fail state and throws `IOException`;
and a source too short for even the signature does the same. -/
theorem claim_C7_read_valid_iff_success (d2u : Nat → Nat) (st : IStream)
    (e0 : ZipCentralDirectoryEntry) :
    ((ZipCentralDirectoryEntry.read d2u st e0).entry.valid = true
      ↔ (ZipCentralDirectoryEntry.read d2u st e0).thrown = none)
    ∧ (∀ sig st1, readU32 st = some (sig, st1) → sig ≠ gSignature →
        (ZipCentralDirectoryEntry.read d2u st e0).stream.good = false
        ∧ (ZipCentralDirectoryEntry.read d2u st e0).thrown
            = some ZipiosError.ioException
        ∧ (ZipCentralDirectoryEntry.read d2u st e0).entry.valid = false)
    ∧ (readU32 st = none →
        (ZipCentralDirectoryEntry.read d2u st e0).stream.good = false
        ∧ (ZipCentralDirectoryEntry.read d2u st e0).thrown
            = some ZipiosError.ioException) := by
  unfold ZipCentralDirectoryEntry.read
  cases hu : readU32 st with
  | none =>
    dsimp only
    refine ⟨by simp, ?_, fun _ => ⟨rfl, rfl⟩⟩
    intro sig st1 hsome hne
    exact Option.noConfusion hsome
  | some p =>
    obtain ⟨sig0, st1'⟩ := p
    dsimp only
    by_cases hsig : sig0 = gSignature
    · rw [if_neg (by simp [hsig])]
      cases hf : readCDirFields st1' with
      | none =>
        dsimp only
        refine ⟨by simp, ?_, ?_⟩
        · intro sig st1 hsome hne
          injection hsome with h1
          injection h1 with hs1 hs2
          exact absurd (hs1 ▸ hsig) hne
        · intro hnone
          exact Option.noConfusion hnone
      | some q =>
        obtain ⟨f, st2⟩ := q
        dsimp only
        refine ⟨by simp, ?_, ?_⟩
        · intro sig st1 hsome hne
          injection hsome with h1
          injection h1 with hs1 hs2
          exact absurd (hs1 ▸ hsig) hne
        · intro hnone
          exact Option.noConfusion hnone
    · rw [if_pos hsig]
      refine ⟨by simp, ?_, ?_⟩
      · intro sig st1 hsome hne
        exact ⟨rfl, rfl, rfl⟩
      · intro hnone
        exact Option.noConfusion hnone

/-- Witness for C7: reading from a source whose first four bytes are
zero (signature 0) fails the stream, throws `IOException`, and leaves
the entry invalid. -/
theorem claim_C7_witness :
    readU32 ⟨[0, 0, 0, 0], true⟩ = some (0, ⟨[], true⟩)
    ∧ (ZipCentralDirectoryEntry.read (fun t => t)
          ⟨[0, 0, 0, 0], true⟩ {}).stream.good = false
    ∧ (ZipCentralDirectoryEntry.read (fun t => t)
          ⟨[0, 0, 0, 0], true⟩ {}).thrown = some ZipiosError.ioException
    ∧ (ZipCentralDirectoryEntry.read (fun t => t)
          ⟨[0, 0, 0, 0], true⟩ {}).entry.valid = false := by
  have h := (claim_C7_read_valid_iff_success (fun t => t)
      ⟨[0, 0, 0, 0], true⟩ {}).2.1 0 ⟨[], true⟩ (by decide) (by decide)
  exact ⟨by decide, h.1, h.2.1, h.2.2⟩

/-! ### Central directory layout lemmas for the write path -/

/-- Unrolling the `writeCentralDirectory` loop: the records are the
entries' central directory records in order, the position advances by
the sum of their header sizes, and `cdir_size` accumulates that same
sum. -/
theorem writeCDirStep_foldl (entries : List ZipCDirEntry) (os : OStreamM)
    (acc : Nat) :
    entries.foldl writeCDirStep (os, acc)
      = (⟨os.recs ++ entries.map OutRec.cdirRecord,
          os.pos + (entries.map ZipCDirEntry.getCDirHeaderSize).sum⟩,
         acc + (entries.map ZipCDirEntry.getCDirHeaderSize).sum) := by
  induction entries generalizing os acc with
  | nil => simp
  | cons e es ih =>
    simp only [List.foldl_cons, writeCDirStep]
    rw [ih]
    simp [List.append_assoc, Nat.add_assoc]

/-- `writeCentralDirectory` in closed form: the entry records in order,
then one EOCD record carrying the start position of the central
directory, the summed record sizes, the entry count and the archive
comment. -/
theorem writeCentralDirectory_eq (entries : List ZipCDirEntry)
    (eocd0 : EndOfCentralDirectory) (os : OStreamM) :
    ZipOutputStreambuf.writeCentralDirectory entries eocd0 os
      = ⟨os.recs ++ entries.map OutRec.cdirRecord
           ++ [OutRec.eocdRecord
                { eocd0 with
                  cdirOffset := os.pos,
                  cdirSize := (entries.map ZipCDirEntry.getCDirHeaderSize).sum,
                  totalCount := entries.length }],
         os.pos + (entries.map ZipCDirEntry.getCDirHeaderSize).sum
           + (22 + eocd0.comment.length)⟩ := by
  unfold ZipOutputStreambuf.writeCentralDirectory
  rw [writeCDirStep_foldl]
  simp [OutRec.byteSize, List.append_assoc]

/-- `closeEntry` on the write path always leaves `_open_entry`
cleared. -/
theorem closeEntryW_openEntry (E : DeflateEngine) (s : ZipOutputState) :
    (ZipOutputStreambuf.closeEntry E s).openEntry = false := by
  unfold ZipOutputStreambuf.closeEntry
  split
  · rename_i h
    simpa using h
  · rfl

/-- `finish` leaves `_open_entry` cleared. -/
theorem finish_openEntry (E : DeflateEngine) (s : ZipOutputState) :
    (ZipOutputStreambuf.finish E s).openEntry = false := by
  unfold ZipOutputStreambuf.finish
  exact closeEntryW_openEntry E s

/-- On a state with no open entry, the write-path `closeEntry` is the
identity. -/
theorem closeEntryW_of_closed (E : DeflateEngine) (s : ZipOutputState)
    (h : s.openEntry = false) :
    ZipOutputStreambuf.closeEntry E s = s := by
  unfold ZipOutputStreambuf.closeEntry
  rw [if_pos (by simp [h])]

/-- The closed form of `finish`: after closing any open entry, the sink
grows by the central directory records in order and one EOCD record
whose offset is the position the central directory started at, whose
size is the summed record sizes, whose count is the number of entries
and whose comment is the archive comment. -/
theorem finish_sink_eq (E : DeflateEngine) (s : ZipOutputState) :
    (ZipOutputStreambuf.finish E s).sink
      = (ZipOutputStreambuf.closeEntry E s).sink
        ++ (ZipOutputStreambuf.closeEntry E s).entries.map OutRec.cdirRecord
        ++ [OutRec.eocdRecord
             { cdirOffset := (ZipOutputStreambuf.closeEntry E s).sinkPos,
               cdirSize := ((ZipOutputStreambuf.closeEntry E s).entries.map
                   ZipCDirEntry.getCDirHeaderSize).sum,
               totalCount := (ZipOutputStreambuf.closeEntry E s).entries.length,
               comment := (ZipOutputStreambuf.closeEntry E s).zipComment }] := by
  unfold ZipOutputStreambuf.finish
  dsimp only
  rw [writeCentralDirectory_eq]

/-- `finish` does not change the entry list (the central directory is
written from it, not into it). -/
theorem finish_entries (E : DeflateEngine) (s : ZipOutputState) :
    (ZipOutputStreambuf.finish E s).entries
      = (ZipOutputStreambuf.closeEntry E s).entries := by
  unfold ZipOutputStreambuf.finish
  rfl

/-- `finish` preserves the archive comment. -/
theorem finish_zipComment (E : DeflateEngine) (s : ZipOutputState) :
    (ZipOutputStreambuf.finish E s).zipComment
      = (ZipOutputStreambuf.closeEntry E s).zipComment := by
  unfold ZipOutputStreambuf.finish
  rfl

/-- C3: `finish()` closes any open entry, then appends to the sink one
central directory record per entry in insertion order followed by an
EOCD record whose `cdir_offset` is the sink position at which the
central directory began (the position after closing the entry),
whose `cdir_size` is the sum of the entries' `getCDirHeaderSize`
values, whose `total_count` is the number of entries, and which carries
the archive comment; the archive is then marked closed. -/
theorem claim_C3_finish_writes_central_directory (E : DeflateEngine)
    (s : ZipOutputState) :
    (ZipOutputStreambuf.finish E s).openEntry = false
    ∧ (ZipOutputStreambuf.finish E s).isOpen = false
    ∧ (ZipOutputStreambuf.finish E s).sink
        = (ZipOutputStreambuf.closeEntry E s).sink
          ++ (ZipOutputStreambuf.closeEntry E s).entries.map OutRec.cdirRecord
          ++ [OutRec.eocdRecord
               { cdirOffset := (ZipOutputStreambuf.closeEntry E s).sinkPos,
                 cdirSize := ((ZipOutputStreambuf.closeEntry E s).entries.map
                     ZipCDirEntry.getCDirHeaderSize).sum,
                 totalCount :=
                   (ZipOutputStreambuf.closeEntry E s).entries.length,
                 comment := (ZipOutputStreambuf.closeEntry E s).zipComment }] :=
  ⟨finish_openEntry E s, rfl, finish_sink_eq E s⟩

/-- C9: `finish()` is not idempotent — on an already-finished stream
(where `closeEntry` is the identity) it appends a full second central
directory and EOCD record to the sink, and the destructor runs
`finish()` again, so destruction after `finish()`/`close()` emits that
second copy; the sink strictly grows by one record per entry plus
one. -/
theorem claim_C9_finish_not_idempotent (E : DeflateEngine)
    (s : ZipOutputState) :
    (ZipOutputStreambuf.destructor E (ZipOutputStreambuf.finish E s)).sink
      = (ZipOutputStreambuf.finish E s).sink
        ++ (ZipOutputStreambuf.finish E s).entries.map OutRec.cdirRecord
        ++ [OutRec.eocdRecord
             { cdirOffset := (ZipOutputStreambuf.finish E s).sinkPos,
               cdirSize := ((ZipOutputStreambuf.finish E s).entries.map
                   ZipCDirEntry.getCDirHeaderSize).sum,
               totalCount := (ZipOutputStreambuf.finish E s).entries.length,
               comment := (ZipOutputStreambuf.finish E s).zipComment }]
    ∧ (ZipOutputStreambuf.destructor E
          (ZipOutputStreambuf.finish E s)).sink.length
        = (ZipOutputStreambuf.finish E s).sink.length
          + ((ZipOutputStreambuf.finish E s).entries.length + 1) := by
  have hce : ZipOutputStreambuf.closeEntry E (ZipOutputStreambuf.finish E s)
      = ZipOutputStreambuf.finish E s :=
    closeEntryW_of_closed E _ (finish_openEntry E s)
  have hmain : (ZipOutputStreambuf.destructor E
        (ZipOutputStreambuf.finish E s)).sink
      = (ZipOutputStreambuf.finish E s).sink
        ++ (ZipOutputStreambuf.finish E s).entries.map OutRec.cdirRecord
        ++ [OutRec.eocdRecord
             { cdirOffset := (ZipOutputStreambuf.finish E s).sinkPos,
               cdirSize := ((ZipOutputStreambuf.finish E s).entries.map
                   ZipCDirEntry.getCDirHeaderSize).sum,
               totalCount := (ZipOutputStreambuf.finish E s).entries.length,
               comment := (ZipOutputStreambuf.finish E s).zipComment }] := by
    unfold ZipOutputStreambuf.destructor
    rw [finish_sink_eq, hce]
  refine ⟨hmain, ?_⟩
  rw [hmain]
  simp [List.length_append]

end Zipios
